import Mathlib

/-!
Verification of `find_elevation_points.py`.

The script loads mountain peaks and via-ferrata segments from an OSM
extract and answers repeated interactive queries: filter peaks by
elevation / summit cross / via-ferrata reachability, rank them by
geodesic distance from a geocoded start point, and optionally re-rank
the nearest 20 by topographic dominance.

We embed the query engine shallowly.  The geodesic distance function
(`geopy.distance.geodesic`) is an external collaborator, so every
definition is parameterised over an arbitrary distance function
`Dist`.  Elevations and distances are rationals; Python's
`float('inf')` dominance sentinel becomes `⊤ : WithTop ℚ`; Python's
stable `list.sort` becomes `List.insertionSort` (stable for a total
preorder, matching CPython's guarantee; `reverse=True` is the stable
descending sort).
-/

namespace FindElevationPoints

/-- A peak record as built by `PeakLoader.node` (lines 41-47 of the
source): position, elevation, name, and the `summit:cross` flag. -/
structure Peak where
  lat : ℚ
  lon : ℚ
  ele : ℚ
  name : String
  summit_cross : Bool
deriving DecidableEq

/-- A via-ferrata segment as built by `ViaFerrataLoader.way` (lines
53-61): vertex coordinates and an optional difficulty scale (`None`
when the tag is absent or unparsable). -/
structure Segment where
  coords : List (ℚ × ℚ)
  scale : Option ℤ
deriving DecidableEq

/-- The external geodesic distance collaborator. -/
abbrev Dist := (ℚ × ℚ) → (ℚ × ℚ) → ℚ

/-- `compute_dominance(peaks, peak)` (lines 80-87): the minimum
distance from `peak` to any strictly higher peak of `peaks`, and
`float('inf')` (here `⊤`) when no strictly higher peak exists. -/
def compute_dominance (dist : Dist) (peaks : List Peak) (peak : Peak) : WithTop ℚ :=
  let higher := peaks.filter (fun p => decide (peak.ele < p.ele))
  if higher.isEmpty then ⊤
  else (higher.map (fun p => dist (peak.lat, peak.lon) (p.lat, p.lon))).minimum

/-- `is_reachable_via(peak, vf_segments, max_scale, threshold_m)`
(lines 90-100): some segment whose scale is absent or `≤ max_scale`
has a vertex within `threshold_m` of the peak. -/
def is_reachable_via (dist : Dist) (peak : Peak) (vf_segments : List Segment)
    (max_scale : ℤ) (threshold_m : ℚ) : Bool :=
  vf_segments.any fun seg =>
    (match seg.scale with
     | none => true
     | some s => decide (s ≤ max_scale)) &&
    seg.coords.any fun c => decide (dist (peak.lat, peak.lon) c ≤ threshold_m)

/-- The per-query parameters after the prompt/parse phase (lines
105-132).  `via` is `some (threshold_m, max_scale)` exactly when the
via-ferrata filter survived parsing; the source guarantees that when
`via_only` is still true both numbers were parsed. -/
structure Params where
  min_ele : ℚ
  cross_only : Bool
  dominance : Bool
  via : Option (ℚ × ℤ)
deriving DecidableEq

/-- Step 5 of `run_query` (lines 149-152): keep peaks with
`ele >= min_ele` and (`not cross_only or summit_cross`). -/
def base_filter (peaks : List Peak) (min_ele : ℚ) (cross_only : Bool) : List Peak :=
  peaks.filter fun p => decide (min_ele ≤ p.ele) && (!cross_only || p.summit_cross)

/-- Step 6 of `run_query` (lines 156-161): when the via filter is
active, keep only candidates reachable via a qualifying segment. -/
def via_filter (dist : Dist) (vf_segments : List Segment) (via : Option (ℚ × ℤ))
    (candidates : List Peak) : List Peak :=
  match via with
  | some (threshold_m, max_scale) =>
      candidates.filter fun p => is_reachable_via dist p vf_segments max_scale threshold_m
  | none => candidates

/-- The candidate list surviving both filters. -/
def survivors (dist : Dist) (peaks : List Peak) (vf_segments : List Segment)
    (q : Params) : List Peak :=
  via_filter dist vf_segments q.via (base_filter peaks q.min_ele q.cross_only)

/-- Ordering used by `dist_list.sort(key=lambda x: x[0])`: ascending
by the distance component. -/
def distKeyLe (a b : ℚ × Peak) : Prop := a.1 ≤ b.1

instance : DecidableRel distKeyLe := fun a b => inferInstanceAs (Decidable (a.1 ≤ b.1))

instance : IsTotal (ℚ × Peak) distKeyLe := ⟨fun a b => le_total a.1 b.1⟩

instance : IsTrans (ℚ × Peak) distKeyLe := ⟨fun _ _ _ h h' => le_trans h h'⟩

/-- Ordering used by `dom_list.sort(key=lambda x: x[0], reverse=True)`:
descending by the dominance component (stable). -/
def domKeyGe (a b : WithTop ℚ × ℚ × Peak) : Prop := b.1 ≤ a.1

instance : DecidableRel domKeyGe := fun a b => inferInstanceAs (Decidable (b.1 ≤ a.1))

instance : IsTotal (WithTop ℚ × ℚ × Peak) domKeyGe := ⟨fun a b => le_total b.1 a.1⟩

instance : IsTrans (WithTop ℚ × ℚ × Peak) domKeyGe := ⟨fun _ _ _ h h' => le_trans h' h⟩

/-- Step 7, first half (lines 169-172): pair every candidate with its
distance from the start point. -/
def dist_list (dist : Dist) (start : ℚ × ℚ) (candidates : List Peak) : List (ℚ × Peak) :=
  candidates.map fun p => (dist start (p.lat, p.lon), p)

/-- Step 7, second half (line 173): `dist_list.sort(key=lambda x: x[0])`,
a stable ascending sort by distance. -/
def dist_sorted (dist : Dist) (start : ℚ × ℚ) (candidates : List Peak) : List (ℚ × Peak) :=
  (dist_list dist start candidates).insertionSort distKeyLe

/-- Lines 178-181: attach `compute_dominance(peaks, p)` — against the
full `peaks` dataset — to each of the 20 nearest entries. -/
def dom_list (dist : Dist) (peaks : List Peak) (nearest20 : List (ℚ × Peak)) :
    List (WithTop ℚ × ℚ × Peak) :=
  nearest20.map fun x => (compute_dominance dist peaks x.2, x.1, x.2)

/-- Line 182: `dom_list.sort(key=lambda x: x[0], reverse=True)`, a
stable descending sort by dominance. -/
def dom_sorted (dist : Dist) (peaks : List Peak) (nearest20 : List (ℚ × Peak)) :
    List (WithTop ℚ × ℚ × Peak) :=
  (dom_list dist peaks nearest20).insertionSort domKeyGe

/-- The ranked output of one query: either the ten nearest peaks with
their distances, or the twenty nearest re-sorted by dominance. -/
inductive QueryOutput where
  | byDist : List (ℚ × Peak) → QueryOutput
  | byDom : List (WithTop ℚ × ℚ × Peak) → QueryOutput
deriving DecidableEq

/-- Steps 5-8 of `run_query` (lines 148-195), after geocoding
succeeded: filter, rank by proximity, and either report the ten
nearest or the twenty nearest re-sorted by dominance.  `none` models
the "Keine passenden Peaks gefunden" early return (lines 164-166). -/
def run_query_core (dist : Dist) (peaks : List Peak) (vf_segments : List Segment)
    (start : ℚ × ℚ) (q : Params) : Option QueryOutput :=
  if (survivors dist peaks vf_segments q).isEmpty then none
  else if q.dominance then
    some (.byDom (dom_sorted dist peaks
      ((dist_sorted dist start (survivors dist peaks vf_segments q)).take 20)))
  else
    some (.byDist ((dist_sorted dist start (survivors dist peaks vf_segments q)).take 10))

/-- The raw interactive inputs of one query, already tokenised:
`none` in a numeric field means the corresponding `float(...)` or
`int(...)` call raised `ValueError`; `geocode` is the coordinate
resolver's outcome for the entered country/postal code. -/
structure QueryInput where
  min_ele_in : Option ℚ
  cross_only : Bool
  dominance : Bool
  via_only_in : Bool
  threshold_in : Option ℚ
  scale_in : Option ℤ
  geocode : Option (ℚ × ℚ)
deriving DecidableEq

/-- The prompt/parse phase of `run_query` (lines 105-132).  An
unparsable `min_ele` aborts the query (`none`, line 111).  An
unparsable threshold or scale does NOT abort: it prints a message and
sets `via_only = False` (lines 124-132), after which the query
continues with the via filter disabled. -/
def read_params (inp : QueryInput) : Option Params :=
  match inp.min_ele_in with
  | none => none
  | some me =>
    let via : Option (ℚ × ℤ) :=
      if inp.via_only_in then
        match inp.threshold_in with
        | none => none
        | some t =>
          match inp.scale_in with
          | none => none
          | some s => some (t, s)
      else none
    some { min_ele := me, cross_only := inp.cross_only,
           dominance := inp.dominance, via := via }

/-- One full `run_query(peaks, vf_segments)` call (lines 103-195).
`load_result` is what `load_via_ferrata(map_file)` would return.  The
result triple is (ranked output or `none` on abort/empty, the
`vf_segments` value returned to the loop, how many times the loader
ran during this query).  Lines 134-136 reload the segments whenever
the via filter is active and the cached list is empty. -/
def run_query (dist : Dist) (load_result : List Segment) (peaks : List Peak)
    (vf_segments : List Segment) (inp : QueryInput) :
    Option QueryOutput × List Segment × ℕ :=
  match read_params inp with
  | none => (none, vf_segments, 0)
  | some q =>
    let load := q.via.isSome && vf_segments.isEmpty
    let vf := if load then load_result else vf_segments
    let n := if load then 1 else 0
    match inp.geocode with
    | none => (none, vf, n)
    | some start => (run_query_core dist peaks vf start q, vf, n)

/-- The `while True` loop of `main` (lines 211-215): run the queries
in order, threading the cached `vf_segments` through, collecting each
query's output and the total number of loader invocations. -/
def run_loop (dist : Dist) (load_result : List Segment) (peaks : List Peak) :
    List QueryInput → List Segment → List (Option QueryOutput) × List Segment × ℕ
  | [], vf => ([], vf, 0)
  | inp :: rest, vf =>
    let r := run_query dist load_result peaks vf inp
    let rs := run_loop dist load_result peaks rest r.2.1
    (r.1 :: rs.1, rs.2.1, r.2.2 + rs.2.2)

/-- `main` (lines 198-215): optionally load the segments eagerly
(lines 207-209), then run the query loop.  Returns the outputs and
the total number of `load_via_ferrata` invocations in the process. -/
def main_loop (dist : Dist) (load_result : List Segment) (peaks : List Peak)
    (use_via : Bool) (inputs : List QueryInput) :
    List (Option QueryOutput) × List Segment × ℕ :=
  let vf0 := if use_via then load_result else []
  let n0 := if use_via then 1 else 0
  let r := run_loop dist load_result peaks inputs vf0
  (r.1, r.2.1, n0 + r.2.2)

/-! ### Concrete data for witnesses and counterexamples -/

/-- A degenerate distance collaborator for witnesses. -/
def distFlat : Dist := fun _ _ => 0

/-- A distance collaborator reading off the first coordinate of the
second point, so that scenario points can be placed at exact
distances from `peakO` (which sits at x = 0). -/
def distX : Dist := fun _ b => b.1

def pW : Peak := ⟨0, 0, 5, "P", false⟩

def sW : Peak := ⟨1, 0, 3, "S", false⟩

/-- A summit with negative elevation (e.g. a peak below sea level). -/
def negPeak : Peak := ⟨0, 0, -1, "N", false⟩

/-- The scenario summit for C3, at x = 0. -/
def peakO : Peak := ⟨0, 0, 1000, "O", false⟩

/-- A via-ferrata segment of difficulty 3 with a vertex at distance 50
from `peakO` under `distX`. -/
def segHard : Segment := ⟨[(50, 0)], some 3⟩

/-- A via-ferrata segment of absent difficulty with a vertex at
distance 299 from `peakO` under `distX`. -/
def segEasy : Segment := ⟨[(299, 0)], none⟩

/-- A well-formed query input requesting the via-ferrata filter, with
all numeric fields parsable and geocoding succeeding. -/
def inpVia : QueryInput := ⟨some 0, false, false, true, some 300, some 2, some (0, 0)⟩

/-- A query input with an unparsable minimum elevation. -/
def inpBadMin : QueryInput := ⟨none, false, false, false, none, none, some (0, 0)⟩

/-- A query input requesting the via-ferrata filter but with an
unparsable distance threshold. -/
def inpBadThr : QueryInput := ⟨some 0, false, false, true, none, some 2, some (0, 0)⟩

/-- A query input whose postal code fails to geocode. -/
def inpBadGeo : QueryInput := ⟨some 0, false, false, false, none, none, none⟩

/-! ### Helper lemmas -/

/-- The `if higher == []` branch of `compute_dominance` collapses:
the result is always the `minimum` (which is `⊤` on the empty list) of
the distances to the strictly higher peaks. -/
theorem compute_dominance_eq_minimum (dist : Dist) (peaks : List Peak) (s : Peak) :
    compute_dominance dist peaks s =
      ((peaks.filter (fun p => decide (s.ele < p.ele))).map
        (fun p => dist (s.lat, s.lon) (p.lat, p.lon))).minimum := by
  unfold compute_dominance
  by_cases h : (peaks.filter (fun p => decide (s.ele < p.ele))).isEmpty = true
  · rw [List.isEmpty_iff] at h
    simp [h]
  · simp [h]

/-- The minimum over a superlist is at most the minimum over a sublist
(membership-wise). -/
theorem minimum_le_minimum_of_mem_imp {α : Type _} [LinearOrder α] {A B : List α}
    (h : ∀ x ∈ B, x ∈ A) : A.minimum ≤ B.minimum := by
  cases hB : B.minimum with
  | top => exact le_top
  | coe m =>
    obtain ⟨hm, -⟩ := List.minimum_eq_coe_iff.mp hB
    exact List.minimum_le_of_mem' (h m hm)

/-- The difficulty test of `is_reachable_via` (line 96), spelled out. -/
theorem scale_ok_iff (o : Option ℤ) (m : ℤ) :
    (match o with
     | none => true
     | some sc => decide (sc ≤ m)) = true ↔ o = none ∨ ∃ sc, o = some sc ∧ sc ≤ m := by
  cases o <;> simp

/-! ### C1 -/

/-- C1: `compute_dominance` is the minimum distance from `s` to any
strictly higher peak (`⊤` when there is none): it is `⊤` iff no peak
is strictly higher, it is a lower bound of the distances to strictly
higher peaks, and it is attained at some strictly higher peak when
one exists.  Moreover the query pipeline computes every displayed
dominance value with `compute_dominance dist peaks`, the full loaded
dataset, not the filtered candidate set. -/
theorem dominance_min_higher_full_dataset (dist : Dist) (peaks : List Peak) (s : Peak) :
    (compute_dominance dist peaks s = ⊤ ↔ ∀ p ∈ peaks, ¬ s.ele < p.ele) ∧
    (∀ p ∈ peaks, s.ele < p.ele →
      compute_dominance dist peaks s ≤ (dist (s.lat, s.lon) (p.lat, p.lon) : WithTop ℚ)) ∧
    ((∃ p ∈ peaks, s.ele < p.ele) → ∃ p ∈ peaks, s.ele < p.ele ∧
      compute_dominance dist peaks s = (dist (s.lat, s.lon) (p.lat, p.lon) : WithTop ℚ)) ∧
    (∀ (vf : List Segment) (start : ℚ × ℚ) (q : Params) (r : List (WithTop ℚ × ℚ × Peak)),
      run_query_core dist peaks vf start q = some (.byDom r) →
      ∀ e ∈ r, e.1 = compute_dominance dist peaks e.2.2) := by
  refine ⟨?_, ?_, ?_, ?_⟩
  · rw [compute_dominance_eq_minimum, List.minimum_eq_top]
    simp [List.filter_eq_nil_iff]
  · intro p hp hlt
    rw [compute_dominance_eq_minimum]
    exact List.minimum_le_of_mem'
      (List.mem_map_of_mem _ (List.mem_filter.mpr ⟨hp, by simpa using hlt⟩))
  · rintro ⟨p, hp, hlt⟩
    have hmem : p ∈ peaks.filter (fun q => decide (s.ele < q.ele)) :=
      List.mem_filter.mpr ⟨hp, by simpa using hlt⟩
    rw [compute_dominance_eq_minimum]
    cases hmin : ((peaks.filter (fun q => decide (s.ele < q.ele))).map
        (fun q => dist (s.lat, s.lon) (q.lat, q.lon))).minimum with
    | top =>
      rw [List.minimum_eq_top, List.map_eq_nil_iff] at hmin
      rw [hmin] at hmem
      exact absurd hmem (List.not_mem_nil p)
    | coe m =>
      obtain ⟨hm, -⟩ := List.minimum_eq_coe_iff.mp hmin
      obtain ⟨q, hqL, hfq⟩ := List.mem_map.mp hm
      obtain ⟨hq, hlt'⟩ := List.mem_filter.mp hqL
      exact ⟨q, hq, by simpa using hlt', by rw [hfq]⟩
  · intro vf start q r hrun e he
    unfold run_query_core at hrun
    by_cases hemp : (survivors dist peaks vf q).isEmpty = true
    · simp [hemp] at hrun
    · by_cases hdom : q.dominance = true
      · simp only [hemp, hdom, if_true, if_false, Bool.false_eq_true,
          Option.some.injEq, QueryOutput.byDom.injEq] at hrun
        rw [← hrun] at he
        rw [dom_sorted, List.mem_insertionSort, dom_list, List.mem_map] at he
        obtain ⟨x, -, hx⟩ := he
        rw [← hx]
      · simp [hemp, hdom] at hrun

/-- Closed instance of `dominance_min_higher_full_dataset`: in the
dataset `[pW, sW]` the peak `sW` (3 m) has the strictly higher `pW`
(5 m), so its dominance is attained at some strictly higher peak. -/
theorem dominance_min_higher_full_dataset_witness :
    ∃ p ∈ [pW, sW], sW.ele < p.ele ∧
      compute_dominance distFlat [pW, sW] sW =
        (distFlat (sW.lat, sW.lon) (p.lat, p.lon) : WithTop ℚ) :=
  (dominance_min_higher_full_dataset distFlat [pW, sW] sW).2.2.1
    ⟨pW, by decide, by decide⟩

/-! ### C7 -/

/-- C7: dominance is monotone in the other summits' elevations —
replacing the elevation of one occurrence of a peak `p ≠ s` by any
value strictly above `s.ele` can only decrease (or keep) `s`'s
dominance. -/
theorem compute_dominance_mono (dist : Dist) (l₁ l₂ : List Peak) (p s : Peak) (e' : ℚ)
    (hne : p ≠ s) (hgt : s.ele < e') :
    compute_dominance dist (l₁ ++ { p with ele := e' } :: l₂) s ≤
      compute_dominance dist (l₁ ++ p :: l₂) s := by
  rw [compute_dominance_eq_minimum, compute_dominance_eq_minimum]
  apply minimum_le_minimum_of_mem_imp
  intro x hx
  simp only [List.mem_map, List.mem_filter, List.mem_append, List.mem_cons,
    decide_eq_true_eq] at hx ⊢
  obtain ⟨q, ⟨hq, hlt⟩, hfq⟩ := hx
  rcases hq with hq | hq | hq
  · exact ⟨q, ⟨Or.inl hq, hlt⟩, hfq⟩
  · subst hq
    exact ⟨{ q with ele := e' }, ⟨Or.inr (Or.inl rfl), hgt⟩, hfq⟩
  · exact ⟨q, ⟨Or.inr (Or.inr hq), hlt⟩, hfq⟩

/-- Closed instance of `compute_dominance_mono` at `p = pW`, `s = sW`,
new elevation 4 (still strictly above `sW.ele = 3`). -/
theorem compute_dominance_mono_witness :
    pW ≠ sW ∧ sW.ele < 4 ∧
      compute_dominance distFlat ([] ++ { pW with ele := 4 } :: []) sW ≤
        compute_dominance distFlat ([] ++ pW :: []) sW :=
  ⟨by decide, by decide,
    compute_dominance_mono distFlat [] [] pW sW 4 (by decide) (by decide)⟩

/-! ### C3 -/

/-- C3: `is_reachable_via` returns true iff some segment whose
difficulty is absent or `≤ max_scale` has a vertex within
`threshold_m` of the summit; in the concrete scenario a difficulty-3
segment at distance 50 does not make the summit reachable under
maximum difficulty 2, while an absent-difficulty segment at distance
299 makes it reachable under threshold 300. -/
theorem is_reachable_via_spec (dist : Dist) (peak : Peak) (segs : List Segment)
    (max_scale : ℤ) (threshold_m : ℚ) :
    (is_reachable_via dist peak segs max_scale threshold_m = true ↔
      ∃ seg ∈ segs,
        (seg.scale = none ∨ ∃ sc, seg.scale = some sc ∧ sc ≤ max_scale) ∧
        ∃ c ∈ seg.coords, dist (peak.lat, peak.lon) c ≤ threshold_m) ∧
    is_reachable_via distX peakO [segHard] 2 300 = false ∧
    is_reachable_via distX peakO [segEasy] 2 300 = true := by
  refine ⟨?_, by decide, by decide⟩
  unfold is_reachable_via
  rw [List.any_eq_true]
  constructor
  · rintro ⟨seg, hseg, hcond⟩
    rw [Bool.and_eq_true, scale_ok_iff, List.any_eq_true] at hcond
    obtain ⟨hsc, c, hc, hdist⟩ := hcond
    exact ⟨seg, hseg, hsc, c, hc, by simpa using hdist⟩
  · rintro ⟨seg, hseg, hsc, c, hc, hdist⟩
    refine ⟨seg, hseg, ?_⟩
    rw [Bool.and_eq_true, scale_ok_iff, List.any_eq_true]
    exact ⟨hsc, c, hc, by simpa using hdist⟩

/-! ### C6 -/

/-- C6 counterexample: for a dataset containing a summit of negative
elevation, `minElevation = 0` and `crossOnly = false` do NOT return
the full dataset — the base filter drops the below-zero summit. -/
theorem base_filter_zero_not_full :
    ¬ base_filter [negPeak] 0 false = [negPeak] := by decide

/-- C6 (amended): the base filter keeps exactly the summits with
elevation ≥ minimum and (crossOnly false or hasCross); for
`minElevation = 0` and `crossOnly = false` it returns the full
dataset provided every summit has nonnegative elevation. -/
theorem base_filter_spec (peaks : List Peak) (min_ele : ℚ) (cross_only : Bool) :
    (∀ p, p ∈ base_filter peaks min_ele cross_only ↔
      p ∈ peaks ∧ min_ele ≤ p.ele ∧ (cross_only = false ∨ p.summit_cross = true)) ∧
    ((∀ p ∈ peaks, 0 ≤ p.ele) → base_filter peaks 0 false = peaks) := by
  constructor
  · intro p
    simp [base_filter, List.mem_filter, Bool.and_eq_true, Bool.or_eq_true,
      Bool.not_eq_true']
  · intro h
    rw [base_filter, List.filter_eq_self]
    intro p hp
    simpa using h p hp

/-- Closed instance of `base_filter_spec` on the one-peak dataset
`[pW]` (elevation 5 ≥ 0): the filter at minimum 0 without the cross
restriction returns the dataset unchanged. -/
theorem base_filter_spec_witness : base_filter [pW] 0 false = [pW] :=
  (base_filter_spec [pW] 0 false).2 (by decide)

/-! ### Stability of the modelled Python sorts -/

/-- Stability of `insertionSort`, filter form: if the predicate `p`
only selects elements that are pairwise related by `r` (e.g. elements
sharing one sort key), sorting does not disturb their relative
order. -/
theorem filter_insertionSort {α : Type _} (r : α → α → Prop) [DecidableRel r]
    (p : α → Bool) (hp : ∀ a b, p a = true → p b = true → r a b) (l : List α) :
    (l.insertionSort r).filter p = l.filter p := by
  have hpair : (l.filter p).Pairwise r := by
    apply List.pairwise_of_forall_mem_list
    intro a ha b hb
    exact hp a b (List.of_mem_filter ha) (List.of_mem_filter hb)
  have h1 : List.Sublist (l.filter p) ((l.insertionSort r).filter p) := by
    have h := (List.sublist_insertionSort hpair (List.filter_sublist l)).filter p
    simpa [List.filter_filter] using h
  have h2 : ((l.insertionSort r).filter p).length = (l.filter p).length :=
    ((List.perm_insertionSort r l).filter p).length_eq
  exact (h1.eq_of_length h2.symm).symm

/-- `orderedInsert` preserves a pairwise relation `S`, provided the
inserted element is `S`-below the whole list and `S`-above everything
it is inserted after. -/
theorem pairwise_orderedInsert {α : Type _} (r : α → α → Prop) [DecidableRel r]
    (S : α → α → Prop) (x : α) (h1 : ∀ a, ¬ r x a → S a x) (l : List α)
    (h2 : ∀ b ∈ l, S x b) (h3 : l.Pairwise S) :
    (l.orderedInsert r x).Pairwise S := by
  induction l with
  | nil => simp
  | cons b t ih =>
    rw [List.orderedInsert]
    by_cases hrb : r x b
    · rw [if_pos hrb]
      exact List.Pairwise.cons h2 h3
    · rw [if_neg hrb]
      rcases List.pairwise_cons.mp h3 with ⟨hb, ht⟩
      refine List.pairwise_cons.mpr ⟨?_, ih (fun c hc => h2 c (List.mem_cons_of_mem _ hc)) ht⟩
      intro c hc
      rcases (List.mem_orderedInsert r).mp hc with hcx | hct
      · exact hcx ▸ h1 b hrb
      · exact hb c hct

/-- `insertionSort` preserves a pairwise relation `S` that holds
backwards across every strict inversion of `r` (in particular, any
`S` that is vacuous on pairs with distinct sort keys). -/
theorem pairwise_insertionSort {α : Type _} (r : α → α → Prop) [DecidableRel r]
    (S : α → α → Prop) (hrS : ∀ x a, ¬ r x a → S a x) (l : List α)
    (h : l.Pairwise S) : (l.insertionSort r).Pairwise S := by
  induction l with
  | nil => simp
  | cons x t ih =>
    rw [List.insertionSort]
    rcases List.pairwise_cons.mp h with ⟨hx, ht⟩
    exact pairwise_orderedInsert r S x (fun a => hrS x a) _
      (fun b hb => hx b ((List.mem_insertionSort r).mp hb)) (ih ht)

/-! ### C8 -/

/-- C8: the proximity stage permutes the (distance, summit) pairs of
the surviving candidates into a list sorted by non-decreasing
distance, and entries with equal distance keep their relative input
order (stability, stated as: the sorted list restricted to any fixed
distance equals the input list restricted to that distance). -/
theorem dist_sorted_spec (dist : Dist) (start : ℚ × ℚ) (candidates : List Peak) :
    List.Perm (dist_sorted dist start candidates) (dist_list dist start candidates) ∧
    (dist_sorted dist start candidates).Sorted distKeyLe ∧
    ∀ k : ℚ, (dist_sorted dist start candidates).filter (fun x => decide (x.1 = k)) =
      (dist_list dist start candidates).filter (fun x => decide (x.1 = k)) := by
  refine ⟨List.perm_insertionSort _ _, List.sorted_insertionSort _ _, fun k => ?_⟩
  apply filter_insertionSort
  intro a b ha hb
  have ha' : a.1 = k := of_decide_eq_true ha
  have hb' : b.1 = k := of_decide_eq_true hb
  show a.1 ≤ b.1
  rw [ha', hb']

/-! ### C2 -/

/-- C2: on a non-empty surviving candidate list the pipeline returns:
without dominance, exactly the first 10 entries of the
proximity-sorted list, still in ascending distance order; with
dominance, the first 20 proximity-sorted entries re-sorted by
dominance descending, with every `⊤` (+infinity) entry placed above
every finite entry. -/
theorem run_query_core_result (dist : Dist) (peaks : List Peak) (vf : List Segment)
    (start : ℚ × ℚ) (q : Params) (h : survivors dist peaks vf q ≠ []) :
    (q.dominance = false →
      run_query_core dist peaks vf start q =
        some (.byDist ((dist_sorted dist start (survivors dist peaks vf q)).take 10)) ∧
      ((dist_sorted dist start (survivors dist peaks vf q)).take 10).Sorted distKeyLe) ∧
    (q.dominance = true →
      run_query_core dist peaks vf start q =
        some (.byDom (dom_sorted dist peaks
          ((dist_sorted dist start (survivors dist peaks vf q)).take 20))) ∧
      (dom_sorted dist peaks
        ((dist_sorted dist start (survivors dist peaks vf q)).take 20)).Sorted domKeyGe ∧
      (dom_sorted dist peaks
        ((dist_sorted dist start (survivors dist peaks vf q)).take 20)).Pairwise
          (fun a b => b.1 = ⊤ → a.1 = ⊤)) := by
  have hemp : (survivors dist peaks vf q).isEmpty = false := by
    rw [List.isEmpty_eq_false]
    exact h
  constructor
  · intro hdom
    constructor
    · simp [run_query_core, hemp, hdom]
    · exact ((List.sorted_insertionSort distKeyLe _).sublist (List.take_sublist _ _))
  · intro hdom
    have hsorted : (dom_sorted dist peaks
        ((dist_sorted dist start (survivors dist peaks vf q)).take 20)).Sorted domKeyGe :=
      List.sorted_insertionSort domKeyGe _
    refine ⟨?_, hsorted, ?_⟩
    · simp [run_query_core, hemp, hdom]
    · refine hsorted.imp ?_
      intro a b hba htop
      have hba' : b.1 ≤ a.1 := hba
      rw [htop] at hba'
      exact top_le_iff.mp hba'

/-- Closed instance of `run_query_core_result`: for the one-peak
dataset `[pW]` and a dominance-free query, the result is the first 10
entries of the proximity-sorted list. -/
theorem run_query_core_result_witness :
    run_query_core distFlat [pW] [] (0, 0) ⟨0, false, false, none⟩ =
      some (.byDist ((dist_sorted distFlat (0, 0)
        (survivors distFlat [pW] [] ⟨0, false, false, none⟩)).take 10)) :=
  ((run_query_core_result distFlat [pW] [] (0, 0) ⟨0, false, false, none⟩
    (by decide)).1 rfl).1

/-! ### C10 -/

/-- C10: the descending dominance sort is stable, so whenever two
entries of the final dominance ranking carry equal dominance values,
the one with the smaller proximity distance comes first (the
ascending-distance order of the 20 nearest entries is preserved
within each dominance tie, including ties at +infinity). -/
theorem dom_sorted_ties_by_distance (dist : Dist) (peaks : List Peak)
    (vf : List Segment) (start : ℚ × ℚ) (q : Params)
    (r : List (WithTop ℚ × ℚ × Peak))
    (h : run_query_core dist peaks vf start q = some (.byDom r)) :
    r.Pairwise (fun a b => a.1 = b.1 → a.2.1 ≤ b.2.1) := by
  have hr : r = dom_sorted dist peaks
      ((dist_sorted dist start (survivors dist peaks vf q)).take 20) := by
    unfold run_query_core at h
    by_cases hemp : (survivors dist peaks vf q).isEmpty = true
    · rw [hemp] at h
      simp at h
    · rw [Bool.not_eq_true] at hemp
      rw [hemp] at h
      by_cases hdom : q.dominance = true
      · rw [hdom] at h
        simpa using h.symm
      · rw [Bool.not_eq_true] at hdom
        rw [hdom] at h
        simp at h
  rw [hr]
  apply pairwise_insertionSort
  · intro x a hxa heq
    exfalso
    exact hxa (le_of_eq heq)
  · rw [dom_list, List.pairwise_map]
    have h20 : ((dist_sorted dist start (survivors dist peaks vf q)).take 20).Pairwise
        distKeyLe :=
      (List.sorted_insertionSort distKeyLe _).sublist (List.take_sublist _ _)
    refine h20.imp ?_
    intro a b hab
    intro _
    exact hab

/-- Closed instance of `dom_sorted_ties_by_distance` on the one-peak
dataset `[pW]` with dominance requested: the single result entry (its
dominance is `⊤`, there being no higher peak) trivially satisfies the
tie-order property. -/
theorem dom_sorted_ties_by_distance_witness :
    List.Pairwise (fun a b => a.1 = b.1 → a.2.1 ≤ b.2.1)
      [((⊤ : WithTop ℚ), (0 : ℚ), pW)] :=
  dom_sorted_ties_by_distance distFlat [pW] [] (0, 0) ⟨0, false, true, none⟩
    [((⊤ : WithTop ℚ), (0 : ℚ), pW)] (by decide)

/-! ### C4 -/

/-- A `run_query` call either leaves the cache untouched with no
loader invocation, or sets it to the loader's result with one. -/
theorem run_query_cache_cases (dist : Dist) (lr : List Segment) (peaks : List Peak)
    (vf : List Segment) (inp : QueryInput) :
    (run_query dist lr peaks vf inp).2 = (vf, 0) ∨
    (run_query dist lr peaks vf inp).2 = (lr, 1) := by
  unfold run_query
  cases hrp : read_params inp with
  | none => exact Or.inl rfl
  | some q =>
    by_cases hl : (q.via.isSome && vf.isEmpty) = true
    · right
      simp only [hl, if_true]
      cases inp.geocode <;> rfl
    · left
      simp only [hl, if_false]
      cases inp.geocode <;> rfl

/-- When the cached segment collection is non-empty, `run_query`
never re-invokes the loader and leaves the cache unchanged. -/
theorem run_query_cached (dist : Dist) (lr : List Segment) (peaks : List Peak)
    (vf : List Segment) (inp : QueryInput) (h : vf ≠ []) :
    (run_query dist lr peaks vf inp).2 = (vf, 0) := by
  have hemp : vf.isEmpty = false := by rwa [List.isEmpty_eq_false]
  unfold run_query
  cases hrp : read_params inp with
  | none => rfl
  | some q =>
    simp only [hemp, Bool.and_false, if_false]
    cases inp.geocode <;> rfl

/-- With a non-empty cached collection, a whole query sequence
performs no loads and keeps the cache. -/
theorem run_loop_cached (dist : Dist) (lr : List Segment) (peaks : List Peak)
    (qs : List QueryInput) (vf : List Segment) (h : vf ≠ []) :
    (run_loop dist lr peaks qs vf).2 = (vf, 0) := by
  induction qs with
  | nil => rfl
  | cons inp rest ih =>
    have hr := run_query_cached dist lr peaks vf inp h
    simp only [run_loop, hr, ih]

/-- C4 counterexample: with a loader yielding an empty collection
(zero via-ferrata segments in the map extract), two reachability
queries invoke the loader twice — the source caches through the test
`not vf_segments`, which stays true after an empty load. -/
theorem loader_invoked_twice :
    ¬ (main_loop distFlat [] [] false [inpVia, inpVia]).2.2 ≤ 1 := by decide

/-- C4 (amended): provided the loader yields a NON-EMPTY collection,
it is invoked at most once per process, across the initial startup
option and arbitrarily many queries; only an empty loaded collection
can cause re-invocation. -/
theorem loader_at_most_once (dist : Dist) (lr : List Segment) (peaks : List Peak)
    (use_via : Bool) (inputs : List QueryInput) (hlr : lr ≠ []) :
    (main_loop dist lr peaks use_via inputs).2.2 ≤ 1 := by
  have hloop : ∀ (qs : List QueryInput) (vf : List Segment),
      (run_loop dist lr peaks qs vf).2.2 ≤ 1 := by
    intro qs
    induction qs with
    | nil => intro vf; simp [run_loop]
    | cons inp rest ih =>
      intro vf
      rcases run_query_cache_cases dist lr peaks vf inp with hr | hr
      · simpa only [run_loop, hr, Nat.zero_add] using ih vf
      · have h0 := run_loop_cached dist lr peaks rest lr hlr
        simp [run_loop, hr, h0]
  cases use_via with
  | false => simpa [main_loop] using hloop inputs []
  | true =>
    have h0 := run_loop_cached dist lr peaks inputs lr hlr
    simp [main_loop, h0]

/-- Closed instance of `loader_at_most_once` with a one-segment
loader result and two reachability queries: at most one load. -/
theorem loader_at_most_once_witness :
    (main_loop distFlat [segEasy] [] false [inpVia, inpVia]).2.2 ≤ 1 :=
  loader_at_most_once distFlat [segEasy] [] false [inpVia, inpVia] (by decide)

/-! ### C5 -/

/-- C5 counterexample: a query whose distance threshold fails to
parse is NOT aborted — the source disables the via-ferrata filter and
continues, and on the one-peak dataset `[pW]` it surfaces a ranked
result. -/
theorem threshold_failure_still_produces_result :
    (run_query distFlat [] [pW] [] inpBadThr).1 ≠ none := by decide

/-- C5 (amended): an unparsable minimum elevation aborts the current
query with no ranked result, no loader call and an untouched cache;
an unparsable distance threshold or maximum difficulty does not abort
— it disables the via-ferrata filter, after which the query behaves
exactly like the same query with reachability not requested. -/
theorem numeric_parse_failure_behaviour (dist : Dist) (lr : List Segment)
    (peaks : List Peak) (vf : List Segment) (inp : QueryInput) :
    (inp.min_ele_in = none → run_query dist lr peaks vf inp = (none, vf, 0)) ∧
    (inp.via_only_in = true → inp.threshold_in = none ∨ inp.scale_in = none →
      run_query dist lr peaks vf inp =
        run_query dist lr peaks vf { inp with via_only_in := false }) := by
  obtain ⟨m, c, d, v, t, sc, g⟩ := inp
  constructor
  · intro h
    simp only at h
    subst h
    rfl
  · intro hv hbad
    simp only at hv hbad
    subst hv
    have hrp : read_params ⟨m, c, d, true, t, sc, g⟩ =
        read_params ⟨m, c, d, false, t, sc, g⟩ := by
      unfold read_params
      cases m with
      | none => rfl
      | some me =>
        rcases hbad with h | h
        · subst h
          rfl
        · subst h
          cases t <;> rfl
    show run_query dist lr peaks vf ⟨m, c, d, true, t, sc, g⟩ =
      run_query dist lr peaks vf ⟨m, c, d, false, t, sc, g⟩
    unfold run_query
    rw [hrp]

/-- Closed instance of `numeric_parse_failure_behaviour`: the
bad-minimum-elevation query aborts with no result, and the
bad-threshold query coincides with its reachability-free variant. -/
theorem numeric_parse_failure_behaviour_witness :
    run_query distFlat [] [pW] [] inpBadMin = (none, [], 0) ∧
    run_query distFlat [] [pW] [] inpBadThr =
      run_query distFlat [] [pW] [] { inpBadThr with via_only_in := false } :=
  ⟨(numeric_parse_failure_behaviour distFlat [] [pW] [] inpBadMin).1 rfl,
   (numeric_parse_failure_behaviour distFlat [] [pW] [] inpBadThr).2 rfl (Or.inl rfl)⟩

/-! ### C9 -/

/-- C9: a failed postal-code resolution yields no ranked output for
that query (the pipeline is never reached), while the query loop
still processes every query in the sequence — one outcome per input,
so later queries are unaffected. -/
theorem geocode_failure_aborts_query_only (dist : Dist) (lr : List Segment)
    (peaks : List Peak) (vf : List Segment) (inp : QueryInput)
    (h : inp.geocode = none) :
    (run_query dist lr peaks vf inp).1 = none ∧
    ∀ (qs : List QueryInput) (vf0 : List Segment),
      ((run_loop dist lr peaks qs vf0).1).length = qs.length := by
  constructor
  · unfold run_query
    cases hrp : read_params inp with
    | none => rfl
    | some q => simp [h]
  · intro qs
    induction qs with
    | nil => intro vf0; rfl
    | cons i rest ih =>
      intro vf0
      simp only [run_loop, List.length_cons, ih]

/-- Closed instance of `geocode_failure_aborts_query_only` at the
unresolvable-postal-code input `inpBadGeo`. -/
theorem geocode_failure_aborts_query_only_witness :
    (run_query distFlat [] [pW] [] inpBadGeo).1 = none ∧
    ((run_loop distFlat [] [pW] [inpBadGeo] []).1).length = 1 :=
  ⟨(geocode_failure_aborts_query_only distFlat [] [pW] [] inpBadGeo rfl).1,
   (geocode_failure_aborts_query_only distFlat [] [pW] [] inpBadGeo rfl).2 [inpBadGeo] []⟩

end FindElevationPoints
